import Mathlib

/-!
# Verification of the psychLLM template-evolution pipeline

A shallow embedding, over `ℝ`, `ℚ`, `ℕ`, `List` and `Option`, of the core
functions of the psychLLM repository:

* `src/compute_latent_logits.py` — distribution scorer
  (`convert_logprobs_to_probs`, `compute_kl_divergence_logprobs`), the
  answer-likelihood evaluator (`compute_latent_logits`) and the per-question
  divergence-aggregation step of its `main`;
* `src/gen_blank_latent.py` — top/bottom-k selection, synthesis-input
  collection, aggregated-prompt construction and the publishing tail of
  `main`;
* `src/fill_latents.py` — the template instantiator (`fill_latent`) and the
  per-user loop of its `main`;
* `src/utils.py` — `get_max_latent_key`.

Machine floats are embedded as real numbers, Python lists as `List`, Python
strings as `String` or `List Char`, fallible paths (a None return, an
empty-dict return, a caught exception) as `Option`. A trailing Python slice
`l[-n:]` is embedded by `pySliceLast`, which reproduces the `n = 0` corner
case (`l[-0:] = l[0:] = l`).
-/

namespace PsychLLM


/-- Per-token log-probability payload of an oracle response
(the `.logprobs.tokens` / `.logprobs.token_logprobs` pair). -/
structure Logprobs where
  tokens : List String
  token_logprobs : List ℝ

/-! ## Distribution scorer (`compute_latent_logits.py`, lines 38–89) -/

/-- Embedding of `convert_logprobs_to_probs` (`compute_latent_logits.py`, lines 38–61):
exponentiate each log-probability, add `epsilon` to every probability,
and renormalise; `none` embeds the `return None` taken when the
post-epsilon sum is exactly zero. -/
noncomputable def convert_logprobs_to_probs (logprobs : List ℝ) (epsilon : ℝ) :
    Option (List ℝ) :=
  let probs := logprobs.map Real.exp
  let probs := probs.map (fun p => p + epsilon)
  let total := probs.sum
  if total = 0 then none
  else some (probs.map (fun p => p / total))

/-- Embedding of `scipy.stats.entropy pk qk`: both inputs are normalised to sum to 1 and
the relative entropy `Σ pᵢ * log (pᵢ / qᵢ)` of the normalised arrays is
returned (all entries are strictly positive at the call sites, so the
`rel_entr` special cases for zero entries never fire). -/
noncomputable def scipy_entropy (pk qk : List ℝ) : ℝ :=
  let p := pk.map (fun x => x / pk.sum)
  let q := qk.map (fun x => x / qk.sum)
  ((p.zip q).map (fun x => x.1 * Real.log (x.1 / x.2))).sum

/-- Embedding of `compute_kl_divergence_logprobs` (`compute_latent_logits.py`,
lines 63–89): convert both log-probability lists and apply
`scipy.stats.entropy`; `none` embeds the `return None` taken when either
conversion fails. -/
noncomputable def compute_kl_divergence_logprobs (p_logp q_logp : List ℝ)
    (epsilon : ℝ) : Option ℝ :=
  match convert_logprobs_to_probs p_logp epsilon,
        convert_logprobs_to_probs q_logp epsilon with
  | some p, some q => some (scipy_entropy p q)
  | _, _ => none

/-- The epsilon-smoothed (pre-normalisation) probabilities. -/
noncomputable def smoothed (logprobs : List ℝ) (epsilon : ℝ) : List ℝ :=
  (logprobs.map Real.exp).map (fun p => p + epsilon)

/-- The epsilon-smoothed, normalised distribution: the list returned by
`convert_logprobs_to_probs` in its success case. -/
noncomputable def normSmoothed (logprobs : List ℝ) (epsilon : ℝ) : List ℝ :=
  (smoothed logprobs epsilon).map (fun p => p / (smoothed logprobs epsilon).sum)

/-- The termwise summands `pᵢ * log (pᵢ / qᵢ)` of the relative entropy. -/
noncomputable def relEntropyTerms (p q : List ℝ) : List ℝ :=
  (p.zip q).map (fun x => x.1 * Real.log (x.1 / x.2))

/-! ## Answer-likelihood evaluator (`compute_latent_logits.py`, lines 92–172) -/

/-- The Python trailing slice `l[-n:]`: for `n ≥ 1` the last `min n l.length`
elements; for `n = 0` Python evaluates `l[-0:] = l[0:]`, the whole list. -/
def pySliceLast {α : Type} (n : ℕ) (l : List α) : List α :=
  if n = 0 then l else l.drop (l.length - n)

/-- The last `n` elements of a list — the slice the spec describes with
"the last N of the M". -/
def trailingSlice {α : Type} (n : ℕ) (l : List α) : List α :=
  l.drop (l.length - n)

/-- The two oracle-response fields read by `compute_latent_logits`:
`response.choices[0].logprobs` (the appended end token) and
`response.prompt[0].logprobs` (the echoed prompt + forced answer);
`none` embeds a missing/falsy `logprobs` attribute. -/
structure EvalResponse where
  choices_logprobs : Option Logprobs
  prompt_logprobs : Option Logprobs

/-- Embedding of `compute_latent_logits` (`compute_latent_logits.py`, lines 143–168),
given the oracle response: if the end-token log-probabilities are absent,
return `{}` (`none`); if the prompt log-probabilities are absent, return
`{}`; otherwise concatenate prompt and end streams and keep the trailing
`question_tokens_length` tokens and log-probabilities
(`tokens[-question_tokens_length:]`). -/
def compute_latent_logits (response : EvalResponse)
    (question_tokens_length : ℕ) : Option Logprobs :=
  match response.choices_logprobs with
  | none => none
  | some endLp =>
    match response.prompt_logprobs with
    | none => none
    | some promptLp =>
      some { tokens :=
               pySliceLast question_tokens_length (promptLp.tokens ++ endLp.tokens),
             token_logprobs :=
               pySliceLast question_tokens_length
                 (promptLp.token_logprobs ++ endLp.token_logprobs) }

/-! ## Divergence aggregator (`compute_latent_logits.py`, lines 268–299) -/

/-- One `latents[blank_latent_id]` record written by the aggregation step;
`kl_divergence = none` embeds the field being absent (never written). -/
structure LatentEntry where
  tokens : List String
  token_logprobs_answer : List ℝ
  kl_divergence : Option ℝ

/-- The per-question aggregation step of `main` in
`compute_latent_logits.py` (lines 268–299): when the evaluator returned a
non-empty result, the `latents` entry is written with the tokens and
log-probabilities; the KL divergence is added only when the transcript and
answer log-probability lists have equal length and the divergence
computation succeeds (epsilon defaults to `1e-10`). The second component
collects the warning lines logged on the skip paths. -/
noncomputable def process_question_result (existing_logprob_tokens : List ℝ)
    (result : Option Logprobs) : Option LatentEntry × List String :=
  match result with
  | none => (none, ["No logprobs computed"])
  | some r =>
      if existing_logprob_tokens.length ≠ r.token_logprobs.length then
        (some ⟨r.tokens, r.token_logprobs, none⟩,
         ["Logprobs length mismatch. Skipping KL divergence computation."])
      else
        match compute_kl_divergence_logprobs existing_logprob_tokens
            r.token_logprobs 1e-10 with
        | some kl => (some ⟨r.tokens, r.token_logprobs, some kl⟩, [])
        | none => (some ⟨r.tokens, r.token_logprobs, none⟩,
                   ["KL divergence could not be computed"])

/-- The `for question_id, question_data in questions.items()` loop body,
applied to every question of a bank in order: each question is processed
independently and the loop never aborts. -/
noncomputable def process_questions (qs : List (List ℝ × Option Logprobs)) :
    List (Option LatentEntry × List String) :=
  qs.map (fun q => process_question_result q.1 q.2)

/-! ## Top/bottom-k selection (`gen_blank_latent.py`, lines 261–268) -/

/-- Embedding of `sorted(kl_divergences, key=lambda x: x[1], reverse=True)`: a stable
descending sort on the recorded divergence (second component). Stored
divergence values are embedded as rationals. -/
def kl_divergences_sorted (kl : List (String × ℚ)) : List (String × ℚ) :=
  kl.mergeSort (fun a b => decide (b.2 ≤ a.2))

/-- Source constant `top_k = 5` (`gen_blank_latent.py`, line 265). -/
def top_k : ℕ := 5

/-- Source constant `bottom_k = 5` (`gen_blank_latent.py`, line 266). -/
def bottom_k : ℕ := 5

/-- Embedding of `top_questions = kl_divergences_sorted[:top_k]`. -/
def top_questions (kl : List (String × ℚ)) : List (String × ℚ) :=
  (kl_divergences_sorted kl).take top_k

/-- Embedding of `bottom_questions = kl_divergences_sorted[-bottom_k:]`. -/
def bottom_questions (kl : List (String × ℚ)) : List (String × ℚ) :=
  pySliceLast bottom_k (kl_divergences_sorted kl)

/-- The middle slice shared by the two selections: the elements of the
top slice at positions at or beyond `L - bottom_k` of the sorted list. -/
def overlap_slice (kl : List (String × ℚ)) : List (String × ℚ) :=
  ((kl_divergences_sorted kl).take top_k).drop
    ((kl_divergences_sorted kl).length - bottom_k)

/-! ## Template instantiator (`fill_latents.py`, lines 39–104 and 183–239) -/

/-- Python `str.strip()`: remove leading and trailing whitespace. -/
def pyStrip (s : String) : String :=
  ⟨(((s.data.dropWhile Char.isWhitespace).reverse).dropWhile
      Char.isWhitespace).reverse⟩

/-- The fields of the oracle chat response read by `fill_latent`:
`choices[0].message.content` and `choices[0].logprobs` (`none` embeds a
missing/falsy `logprobs` attribute). -/
structure ChatChoice where
  content : String
  logprobs : Option Logprobs

/-- The outcome of the oracle call inside the `try` block of
`fill_latent`: either the first response choice, or a raised exception (network
failure, malformed response), caught by the `except` branch. -/
inductive OracleOutcome where
  | ok (choice : ChatChoice)
  | exn

/-- The dictionary returned by `fill_latent` on its non-exception path. -/
structure FilledLatent where
  full_text : String
  tokens : List String
  token_logprobs_transcript : List ℝ

/-- Embedding of `fill_latent` (`fill_latents.py`, lines 39–104): the `except` branch
returns `{}` (`none`); otherwise the filled text is the stripped message
content, and when the response carries no log-probability data the token
and log-probability lists are set to `[]` (a warning is logged) — the
filled record is still returned. -/
def fill_latent (oracle : OracleOutcome) : Option FilledLatent :=
  match oracle with
  | .exn => none
  | .ok choice =>
    match choice.logprobs with
    | some lp => some ⟨pyStrip choice.content, lp.tokens, lp.token_logprobs⟩
    | none => some ⟨pyStrip choice.content, [], []⟩

/-- The slice of one user record touched by the `fill_latents.py` main
loop: the `filled_latent` keys already present, and the writes performed
(`(blank_latent_id, full_response)`; the orthogonal NEO-score extraction
stored alongside the response is not modelled). -/
structure FillUserState where
  filled_latent_keys : List String
  saved : List (String × String)

/-- One iteration of the `for index, user_file in enumerate(user_files)`
loop (`fill_latents.py`, lines 183–239): skip when the latent is already
filled; otherwise call `fill_latent` and, if it returned a non-empty
dictionary, store the filled latent; if it returned `{}`, log a warning
and leave the user unchanged. -/
def process_user_fill (blank_latent_id : String) (user : FillUserState)
    (oracle : OracleOutcome) : FillUserState :=
  if blank_latent_id ∈ user.filled_latent_keys then user
  else
    match fill_latent oracle with
    | none => user
    | some fl =>
        ⟨user.filled_latent_keys ++ [blank_latent_id],
         user.saved ++ [(blank_latent_id, fl.full_text)]⟩

/-- The whole user loop: every user is processed in order; no outcome of
the oracle call of one user halts the traversal. -/
def fill_latents_round (blank_latent_id : String)
    (users : List (FillUserState × OracleOutcome)) : List FillUserState :=
  users.map (fun u => process_user_fill blank_latent_id u.1 u.2)

/-! ## Latent-key bookkeeping (`utils.py`, lines 46–60;
`gen_blank_latent.py`, lines 294–327) -/

/-- The match of the regex search `(\d+)$` on a key: the maximal run of
trailing digit characters (`[]` embeds "no match"). -/
def trailingDigits (key : List Char) : List Char :=
  (key.reverse.takeWhile Char.isDigit).reverse

/-- Python `int(s)` on a string of digits: most-significant-first decimal
fold. -/
def parseDigitChars (s : List Char) : ℕ :=
  s.foldl (fun a c => 10 * a + (c.toNat - 48)) 0

/-- The numeric id of a key: the integer value of its trailing digits. -/
def numId (key : List Char) : ℕ :=
  parseDigitChars (trailingDigits key)

/-- The scan loop of `get_max_latent_key` (`utils.py`, lines 51–59):
`max_id` starts at `-1`; a key without trailing digits is skipped; a key
whose numeric id strictly exceeds `max_id` becomes the new `max_key`. -/
def get_max_latent_key_aux :
    List (List Char) → ℤ → Option (List Char) → Option (List Char)
  | [], _, best => best
  | key :: keys, max_id, best =>
      if (trailingDigits key).isEmpty then
        get_max_latent_key_aux keys max_id best
      else if max_id < (parseDigitChars (trailingDigits key) : ℤ) then
        get_max_latent_key_aux keys (parseDigitChars (trailingDigits key))
          (some key)
      else get_max_latent_key_aux keys max_id best

/-- Embedding of `get_max_latent_key` (`utils.py`, lines 46–60): the key of
`filled_latents` with the largest trailing numeric id (`none` when no key
has trailing digits). -/
def get_max_latent_key (keys : List (List Char)) : Option (List Char) :=
  get_max_latent_key_aux keys (-1) none

/-- Python `s.split(sep)` for a single-character separator: always a
non-empty list of (possibly empty) chunks. -/
def pySplit (sep : Char) : List Char → List (List Char)
  | [] => [[]]
  | c :: cs =>
      if c = sep then [] :: pySplit sep cs
      else
        match pySplit sep cs with
        | [] => [[c]]
        | h :: t => (c :: h) :: t

/-- Python `str.isdigit`: non-empty and all digit characters. -/
def pyIsdigit (s : List Char) : Bool :=
  !s.isEmpty && s.all Char.isDigit

/-- Python `str.zfill(width)`: left-pad with `'0'` up to `width`. -/
def zfill (s : List Char) (width : ℕ) : List Char :=
  List.replicate (width - s.length) '0' ++ s

/-- Python `str(n)` for a natural number: decimal digits, most significant
first. -/
def natToDecimal (n : ℕ) : List Char :=
  if n = 0 then ['0'] else ((Nat.digits 10 n).map Nat.digitChar).reverse

/-- Lines 302–310 of `gen_blank_latent.py`: `max_latent_key.split('_')[-1]`
must be all digits (otherwise `ValueError` is raised — embedded as `none`);
the new key is `str(int(number) + 1).zfill(len(number))`. -/
def new_latent_key (max_latent_key : List Char) : Option (List Char) :=
  let max_latent_key_number := (pySplit '_' max_latent_key).getLastD []
  if pyIsdigit max_latent_key_number then
    some (zfill (natToDecimal (parseDigitChars max_latent_key_number + 1))
      max_latent_key_number.length)
  else none

/-! ## Synthesis-input collection and aggregated prompt
(`gen_blank_latent.py`, lines 38–117 and 195–283) -/

/-- One `latents[key]` record as read by `gen_blank_latent.py`;
`kl_divergence = none` embeds the divergence lookup finding no
entry. -/
structure LatentEval where
  kl_divergence : Option ℚ

/-- One question record as read by `gen_blank_latent.py`: display text and
the per-template-version evaluation map. -/
structure GenQuestion where
  question : String
  latents : List (List Char × LatentEval)

/-- One user record as read by `gen_blank_latent.py`: identifier, the
`filled_latent` map (key, `full_text`) and the question banks. -/
structure GenUser where
  user_id_full : String
  filled_latents : List (List Char × String)
  question_banks : List (String × List GenQuestion)

/-- Embedding of the chained lookup
`question_data.get(...).get(max_latent_key, ...).get(...)` that reads the
recorded divergence (`gen_blank_latent.py`, line 247). -/
def lookup_kl (max_latent_key : List Char) (q : GenQuestion) : Option ℚ :=
  match q.latents.lookup max_latent_key with
  | none => none
  | some ev => ev.kl_divergence

/-- The `kl_divergences` collection loop (`gen_blank_latent.py`,
lines 241–253): every question of every bank, in order, contributes its
`(question, kl_divergence)` pair when a divergence is recorded for the
current key. -/
def collect_kl_divergences (max_latent_key : List Char)
    (question_banks : List (String × List GenQuestion)) :
    List (String × ℚ) :=
  (question_banks.map (fun bank =>
    bank.2.filterMap (fun q =>
      (lookup_kl max_latent_key q).map (fun kl => (q.question, kl))))).flatten

/-- One entry of `users_data` (`gen_blank_latent.py`, lines 272–277). -/
structure UsersDataEntry where
  filled_latent : String
  top_k_questions : List (String × ℚ)
  bottom_k_questions : List (String × ℚ)

/-- One iteration of the user loop of `main` (`gen_blank_latent.py`,
lines 197–277): the user is skipped (`continue`, embedded as `none`) when
it has no filled latents, no valid latent key, empty latent content, no
question banks, or — the edge policy under study — no question with a
recorded divergence for the current key; otherwise the user contributes
its filled text and top/bottom question selections. -/
def process_gen_user (u : GenUser) : Option (String × UsersDataEntry) :=
  if u.filled_latents.isEmpty then none
  else
    match get_max_latent_key (u.filled_latents.map Prod.fst) with
    | none => none
    | some max_latent_key =>
      let latent_content := (u.filled_latents.lookup max_latent_key).getD ""
      if latent_content = "" then none
      else if u.question_banks.isEmpty then none
      else
        let kl_divergences :=
          collect_kl_divergences max_latent_key u.question_banks
        if kl_divergences.isEmpty then none
        else
          some (u.user_id_full,
            ⟨latent_content, top_questions kl_divergences,
             bottom_questions kl_divergences⟩)

/-- The fixed header of the aggregated synthesis prompt
(`gen_blank_latent.py`, lines 53–93), with the two `k` interpolations. -/
def aggregated_prompt_header (k : ℕ) : String :=
  "\nYou are an AI assistant specialized in template generation aimed at minimizing KL Divergence between user responses and latent templates when filled out.\n\nYour task is to infer and generate a new blank latent template that better captures the attributes necessary to explain user answers effectively. The goal is to reduce the KL Divergence, indicating a better fit between the template and the user responses.\n\nYou have been provided with data from multiple users. Analyze the provided information to generate a revised blank latent template that addresses the shortcomings identified by high KL divergence questions and reinforces strengths indicated by low KL divergence questions.\n\n**Guidelines:**\n1. For each user:\n   a. Analyze the top "
    ++ toString k ++
    " poorly predicted questions to identify missing or underrepresented attributes in the current template.\n   b. Review the bottom "
    ++ toString k ++
    " well-predicted questions to reinforce effective attributes.\n   c. Synthesize the insights to draft a revised blank latent template.\n   d. Ensure the template is concise, comprehensive, and structured in a way that facilitates accurate filling.\n\n**Desired Output:**\nProvide a single template that may be filled out by future users that isolates latent variables most relevant to the data being analyzed.\n---\n\n**New Blank Latent Template:**\nYour name is ____ and\n1. You are ___ percentile in [LATENT]. This is exemplified by: [FILL IN]\n2. You are ___ percentile in [LATENT]. This is exemplified by: [FILL IN]\n3. You are ___ percentile in [LATENT]. This is exemplified by: [FILL IN]\n4. You are ___ percentile in [LATENT]. This is exemplified by: [FILL IN]\n5. You are ___ percentile in [LATENT]. This is exemplified by: [FILL IN]\n...\n---\n\nYou may only modify the [LATENT] token. You may not modify the other text. Do not justify your response.\n**Example Response:**\n\n---\nYour name is ____ and\n1. You are ___ percentile in openness. This is exemplified by: [FILL IN]\n2. You are ___ percentile in extraversion. This is exemplified by: [FILL IN]\n3. You are ___ percentile in conscientiousness. This is exemplified by: [FILL IN]\n4. You are ___ percentile in agreeableness. This is exemplified by: [FILL IN]\n5. You are ___ percentile in neuroticism. This is exemplified by: [FILL IN]\n...\n---\n"

/-- One numbered question/divergence line of the per-user section
(`gen_blank_latent.py`, lines 106–111): `enumerate(..., 1)`. -/
def question_line (iq : ℕ × (String × ℚ)) : String :=
  toString iq.1 ++ ". \"" ++ iq.2.1 ++ "\" - KL Divergence: "
    ++ toString iq.2.2 ++ "\n"

/-- The per-user `user_prompt` section (`gen_blank_latent.py`,
lines 95–114). -/
def user_section (entry : String × UsersDataEntry) : String :=
  "\n**Filled Latent for " ++ entry.1 ++ ":**\n" ++ entry.2.filled_latent
    ++ "\n\n**Poorly Predicted Questions and KL Divergences:**\n"
    ++ String.join ((entry.2.top_k_questions.enumFrom 1).map question_line)
    ++ "\n**Best Predicted Questions and KL Divergences:**\n"
    ++ String.join ((entry.2.bottom_k_questions.enumFrom 1).map question_line)

/-- Embedding of `construct_aggregated_prompt` (`gen_blank_latent.py`, lines 38–117):
the fixed header followed by one section per `users_data` entry, in
order. -/
def construct_aggregated_prompt
    (users_data : List (String × UsersDataEntry)) (k : ℕ) : String :=
  aggregated_prompt_header k ++ String.join (users_data.map user_section)

/-! ## Round publishing tail (`gen_blank_latent.py`, lines 279–327) -/

/-- The observable outcome of the tail of `main`: the process exit status
(a plain `return` from `main` ends the script with status 0; an uncaught
`ValueError` ends it with status 1), the published template (key and
text), and whether an error line was logged. -/
structure RoundResult where
  exitCode : ℕ
  published : Option (List Char × String)
  errorLogged : Bool

/-- Lines 279–327 of `gen_blank_latent.py`: if `users_data` is empty, log
an error and `return` (no publish, exit status 0); if template generation
returned the empty string, log an error and `return`; otherwise compute
the new key (an invalid key suffix raises `ValueError`, which is uncaught
and exits with status 1) and save exactly one new blank-latent file. -/
def gen_blank_latent_finish (users_data : List (String × UsersDataEntry))
    (new_template : String) (max_latent_key : List Char) : RoundResult :=
  if users_data.isEmpty then ⟨0, none, true⟩
  else if new_template = "" then ⟨0, none, true⟩
  else
    match new_latent_key max_latent_key with
    | none => ⟨1, none, false⟩
    | some nk => ⟨0, some (nk, new_template), false⟩

/-! ## Lemmas and claim theorems -/

lemma smoothed_pos (logprobs : List ℝ) (epsilon : ℝ) (heps : 0 < epsilon) :
    ∀ x ∈ smoothed logprobs epsilon, 0 < x := by
  intro x hx
  simp only [smoothed, List.map_map, List.mem_map] at hx
  obtain ⟨lp, _, rfl⟩ := hx
  have := Real.exp_pos lp
  simp only [Function.comp_apply]
  linarith

lemma smoothed_sum_pos (logprobs : List ℝ) (epsilon : ℝ)
    (hne : logprobs ≠ []) (heps : 0 < epsilon) :
    0 < (smoothed logprobs epsilon).sum := by
  apply List.sum_pos
  · exact smoothed_pos logprobs epsilon heps
  · simpa [smoothed] using hne

lemma convert_eq_of_sum_ne (logprobs : List ℝ) (epsilon : ℝ)
    (h : (smoothed logprobs epsilon).sum ≠ 0) :
    convert_logprobs_to_probs logprobs epsilon =
      some ((smoothed logprobs epsilon).map
        (fun p => p / (smoothed logprobs epsilon).sum)) := by
  simp only [convert_logprobs_to_probs, smoothed] at *
  rw [if_neg h]

lemma sum_map_div (l : List ℝ) (c : ℝ) :
    (l.map (fun p => p / c)).sum = l.sum / c := by
  induction l with
  | nil => simp
  | cons a t ih => simp [ih, add_div]

/-- C1: for every non-empty list of log-probabilities and every
`epsilon > 0`, `convert_logprobs_to_probs` returns a list of the same
length, summing to 1, with every element strictly positive; and (for all
inputs) it returns `none` exactly when the sum of the exponentiated
log-probabilities, each incremented by `epsilon`, is zero. -/
theorem convert_logprobs_to_probs_spec (logprobs : List ℝ) (epsilon : ℝ)
    (hne : logprobs ≠ []) (heps : 0 < epsilon) :
    (∃ out, convert_logprobs_to_probs logprobs epsilon = some out ∧
        out.length = logprobs.length ∧ out.sum = 1 ∧ ∀ x ∈ out, 0 < x) ∧
    (∀ (lps : List ℝ) (eps : ℝ),
        convert_logprobs_to_probs lps eps = none ↔
          ((lps.map Real.exp).map (fun p => p + eps)).sum = 0) := by
  constructor
  · have hsum := smoothed_sum_pos logprobs epsilon hne heps
    refine ⟨(smoothed logprobs epsilon).map
      (fun p => p / (smoothed logprobs epsilon).sum),
      convert_eq_of_sum_ne logprobs epsilon (ne_of_gt hsum), ?_, ?_, ?_⟩
    · simp [smoothed]
    · rw [sum_map_div, div_self (ne_of_gt hsum)]
    · intro x hx
      simp only [List.mem_map] at hx
      obtain ⟨p, hp, rfl⟩ := hx
      exact div_pos (smoothed_pos logprobs epsilon heps p hp) hsum
  · intro lps eps
    unfold convert_logprobs_to_probs
    by_cases h : ((lps.map Real.exp).map (fun p => p + eps)).sum = 0
    · simp [h]
    · simp [h]

/-- Witness for C1 at `logprobs = [0]`, `epsilon = 1`. -/
theorem convert_logprobs_to_probs_spec_witness :
    (∃ out, convert_logprobs_to_probs [(0 : ℝ)] 1 = some out ∧
        out.length = [(0 : ℝ)].length ∧ out.sum = 1 ∧ ∀ x ∈ out, 0 < x) ∧
    (convert_logprobs_to_probs [(0 : ℝ)] 1 = none ↔
      (([(0 : ℝ)].map Real.exp).map (fun p => p + 1)).sum = 0) :=
  have h := convert_logprobs_to_probs_spec [(0 : ℝ)] 1 (by simp) (by norm_num)
  ⟨h.1, h.2 [(0 : ℝ)] 1⟩

lemma convert_eq_normSmoothed (logprobs : List ℝ) (epsilon : ℝ)
    (hne : logprobs ≠ []) (heps : 0 < epsilon) :
    convert_logprobs_to_probs logprobs epsilon =
      some (normSmoothed logprobs epsilon) :=
  convert_eq_of_sum_ne logprobs epsilon
    (ne_of_gt (smoothed_sum_pos logprobs epsilon hne heps))

lemma normSmoothed_sum (logprobs : List ℝ) (epsilon : ℝ)
    (hne : logprobs ≠ []) (heps : 0 < epsilon) :
    (normSmoothed logprobs epsilon).sum = 1 := by
  have hsum := smoothed_sum_pos logprobs epsilon hne heps
  rw [normSmoothed, sum_map_div, div_self (ne_of_gt hsum)]

lemma normSmoothed_pos (logprobs : List ℝ) (epsilon : ℝ)
    (hne : logprobs ≠ []) (heps : 0 < epsilon) :
    ∀ x ∈ normSmoothed logprobs epsilon, 0 < x := by
  intro x hx
  simp only [normSmoothed, List.mem_map] at hx
  obtain ⟨p, hp, rfl⟩ := hx
  exact div_pos (smoothed_pos logprobs epsilon heps p hp)
    (smoothed_sum_pos logprobs epsilon hne heps)

lemma normSmoothed_length (logprobs : List ℝ) (epsilon : ℝ) :
    (normSmoothed logprobs epsilon).length = logprobs.length := by
  simp [normSmoothed, smoothed]

lemma map_div_sum_self (s : List ℝ) (h : s.sum = 1) :
    s.map (fun x => x / s.sum) = s := by
  rw [h]
  simp

lemma scipy_entropy_eq_relEntropyTerms (p q : List ℝ)
    (hp : p.sum = 1) (hq : q.sum = 1) :
    scipy_entropy p q = (relEntropyTerms p q).sum := by
  rw [scipy_entropy, relEntropyTerms, map_div_sum_self p hp, map_div_sum_self q hq]

lemma mul_log_div_ge (a b : ℝ) (ha : 0 < a) (hb : 0 < b) :
    a - b ≤ a * Real.log (a / b) := by
  have ht : 0 < b / a := div_pos hb ha
  have h1 : Real.log (b / a) ≤ b / a - 1 := Real.log_le_sub_one_of_pos ht
  have h2 : Real.log (a / b) = - Real.log (b / a) := by
    rw [← Real.log_inv]
    congr 1
    rw [inv_div]
  have h3 : a * Real.log (b / a) ≤ a * (b / a - 1) :=
    mul_le_mul_of_nonneg_left h1 (le_of_lt ha)
  have h4 : a * (b / a - 1) = b - a := by
    field_simp
  rw [h2]
  linarith

lemma mul_log_div_eq_iff (a b : ℝ) (ha : 0 < a) (hb : 0 < b) :
    a * Real.log (a / b) = a - b ↔ a = b := by
  constructor
  · intro h
    by_contra hne
    have ht : 0 < b / a := div_pos hb ha
    have htne : b / a ≠ 1 := by
      intro h1
      rw [div_eq_one_iff_eq (ne_of_gt ha)] at h1
      exact hne h1.symm
    have h1 : Real.log (b / a) < b / a - 1 := Real.log_lt_sub_one_of_pos ht htne
    have h2 : Real.log (a / b) = - Real.log (b / a) := by
      rw [← Real.log_inv]
      congr 1
      rw [inv_div]
    have h3 : a * Real.log (b / a) < a * (b / a - 1) := (mul_lt_mul_left ha).mpr h1
    have h4 : a * (b / a - 1) = b - a := by
      field_simp
    rw [h2] at h
    linarith
  · intro h
    subst h
    rw [div_self (ne_of_gt ha)]
    simp

/-- Gibbs-style bound: for positive lists of equal length, the relative
entropy sum dominates the difference of the list sums, with equality
exactly at identical lists. -/
lemma gibbs_aux (p : List ℝ) : ∀ (q : List ℝ), p.length = q.length →
    (∀ x ∈ p, 0 < x) → (∀ x ∈ q, 0 < x) →
    (p.sum - q.sum ≤ (relEntropyTerms p q).sum ∧
      ((relEntropyTerms p q).sum = p.sum - q.sum ↔ p = q)) := by
  induction p with
  | nil =>
    intro q hlen _ _
    cases q with
    | nil => simp [relEntropyTerms]
    | cons b q => simp at hlen
  | cons a p ih =>
    intro q hlen hp hq
    cases q with
    | nil => simp at hlen
    | cons b q =>
      simp only [List.length_cons, Nat.add_right_cancel_iff] at hlen
      have ha : 0 < a := hp a (List.mem_cons_self a p)
      have hb : 0 < b := hq b (List.mem_cons_self b q)
      have hp' : ∀ x ∈ p, 0 < x := fun x hx => hp x (List.mem_cons_of_mem a hx)
      have hq' : ∀ x ∈ q, 0 < x := fun x hx => hq x (List.mem_cons_of_mem b hx)
      obtain ⟨ihle, ihiff⟩ := ih q hlen hp' hq'
      have hterm_le := mul_log_div_ge a b ha hb
      have hterm_iff := mul_log_div_eq_iff a b ha hb
      have hexp : (relEntropyTerms (a :: p) (b :: q)).sum =
          a * Real.log (a / b) + (relEntropyTerms p q).sum := by
        simp [relEntropyTerms]
      constructor
      · rw [hexp]
        simp only [List.sum_cons]
        linarith
      · constructor
        · intro heq
          rw [hexp] at heq
          simp only [List.sum_cons] at heq
          have h1 : a * Real.log (a / b) = a - b := by linarith
          have h2 : (relEntropyTerms p q).sum = p.sum - q.sum := by linarith
          have hab : a = b := hterm_iff.mp h1
          have hpq : p = q := ihiff.mp h2
          rw [hab, hpq]
        · intro heq
          injection heq with hab hpq
          rw [hexp]
          simp only [List.sum_cons]
          have h1 : a * Real.log (a / b) = a - b := hterm_iff.mpr hab
          have h2 : (relEntropyTerms p q).sum = p.sum - q.sum := ihiff.mpr hpq
          linarith

/-- C2 counterexample: at the equal-length pair `p = q = []` with
`epsilon = 1`, the divergence is `none` — no finite value is returned, and
in particular the self-divergence is not `0`. -/
theorem compute_kl_divergence_logprobs_empty_counterexample :
    compute_kl_divergence_logprobs [] [] 1 = none ∧
      compute_kl_divergence_logprobs [] [] 1 ≠ some 0 := by
  constructor
  · simp [compute_kl_divergence_logprobs, convert_logprobs_to_probs]
  · simp [compute_kl_divergence_logprobs, convert_logprobs_to_probs]

/-- C2 (amended: non-empty inputs): for equal-length, non-empty
log-probability lists and `epsilon > 0`, the divergence is some finite
real `d` equal to the termwise relative-entropy sum over
the two epsilon-smoothed normalised distributions; `d` is non-negative,
`d = 0` exactly when the two smoothed distributions are identical, and the
self-divergence of `p` is exactly `0`. -/
theorem compute_kl_divergence_logprobs_spec (p_logp q_logp : List ℝ)
    (epsilon : ℝ) (hlen : p_logp.length = q_logp.length)
    (hne : p_logp ≠ []) (heps : 0 < epsilon) :
    ∃ d : ℝ,
      compute_kl_divergence_logprobs p_logp q_logp epsilon = some d ∧
      d = (relEntropyTerms (normSmoothed p_logp epsilon)
        (normSmoothed q_logp epsilon)).sum ∧
      0 ≤ d ∧
      (d = 0 ↔ normSmoothed p_logp epsilon = normSmoothed q_logp epsilon) ∧
      compute_kl_divergence_logprobs p_logp p_logp epsilon = some 0 := by
  have hqne : q_logp ≠ [] := by
    intro h
    rw [h] at hlen
    simp at hlen
    exact hne hlen
  have hcp := convert_eq_normSmoothed p_logp epsilon hne heps
  have hcq := convert_eq_normSmoothed q_logp epsilon hqne heps
  have hps := normSmoothed_sum p_logp epsilon hne heps
  have hqs := normSmoothed_sum q_logp epsilon hqne heps
  have hpp := normSmoothed_pos p_logp epsilon hne heps
  have hqp := normSmoothed_pos q_logp epsilon hqne heps
  have hlen' : (normSmoothed p_logp epsilon).length =
      (normSmoothed q_logp epsilon).length := by
    rw [normSmoothed_length, normSmoothed_length, hlen]
  obtain ⟨hle, hiff⟩ := gibbs_aux (normSmoothed p_logp epsilon)
    (normSmoothed q_logp epsilon) hlen' hpp hqp
  refine ⟨scipy_entropy (normSmoothed p_logp epsilon)
    (normSmoothed q_logp epsilon), ?_, ?_, ?_, ?_, ?_⟩
  · rw [compute_kl_divergence_logprobs, hcp, hcq]
  · exact scipy_entropy_eq_relEntropyTerms _ _ hps hqs
  · rw [scipy_entropy_eq_relEntropyTerms _ _ hps hqs]
    rw [hps, hqs] at hle
    linarith
  · rw [scipy_entropy_eq_relEntropyTerms _ _ hps hqs]
    rw [hps, hqs] at hiff
    simpa using hiff
  · rw [compute_kl_divergence_logprobs, hcp]
    have hself : scipy_entropy (normSmoothed p_logp epsilon)
        (normSmoothed p_logp epsilon) = 0 := by
      rw [scipy_entropy_eq_relEntropyTerms _ _ hps hps]
      obtain ⟨_, hiffp⟩ := gibbs_aux (normSmoothed p_logp epsilon)
        (normSmoothed p_logp epsilon) rfl hpp hpp
      have := hiffp.mpr rfl
      simpa using this
    simp [hself]

/-- Witness for C2 at `p = [0]`, `q = [-1]`, `epsilon = 1`. -/
theorem compute_kl_divergence_logprobs_spec_witness :
    ∃ d : ℝ,
      compute_kl_divergence_logprobs [(0 : ℝ)] [(-1 : ℝ)] 1 = some d ∧
      d = (relEntropyTerms (normSmoothed [(0 : ℝ)] 1)
        (normSmoothed [(-1 : ℝ)] 1)).sum ∧
      0 ≤ d ∧
      (d = 0 ↔ normSmoothed [(0 : ℝ)] 1 = normSmoothed [(-1 : ℝ)] 1) ∧
      compute_kl_divergence_logprobs [(0 : ℝ)] [(0 : ℝ)] 1 = some 0 :=
  compute_kl_divergence_logprobs_spec [(0 : ℝ)] [(-1 : ℝ)] 1 rfl
    (by simp) (by norm_num)

lemma pySliceLast_of_pos {α : Type} (n : ℕ) (l : List α) (hn : n ≠ 0) :
    pySliceLast n l = trailingSlice n l := by
  simp [pySliceLast, trailingSlice, hn]

lemma trailingSlice_length {α : Type} (n : ℕ) (l : List α)
    (h : n ≤ l.length) : (trailingSlice n l).length = n := by
  simp [trailingSlice]
  omega

/-- C3 counterexample: a combined stream of length `M = 1` with
`answerTokenCount N = 0` (allowed by the claim, since `M ≥ N`): the
evaluator returns the whole one-token stream, not the last zero tokens. -/
theorem compute_latent_logits_trailing_counterexample :
    compute_latent_logits ⟨some ⟨[], []⟩, some ⟨["a"], [(0 : ℝ)]⟩⟩ 0 =
      some ⟨["a"], [(0 : ℝ)]⟩ ∧
    (some (⟨["a"], [(0 : ℝ)]⟩ : Logprobs) ≠
      some (⟨trailingSlice 0 ["a"], trailingSlice 0 [(0 : ℝ)]⟩ : Logprobs)) := by
  constructor
  · simp [compute_latent_logits, pySliceLast]
  · simp [trailingSlice]

/-- C3 (amended: `answerTokenCount ≥ 1`): whenever both log-probability
streams are present and `N ≥ 1`, the evaluator returns exactly the trailing
slice of length `N` of the combined prompt-plus-end stream, and for a
combined stream of length `M ≥ N` that slice has length exactly `N`. -/
theorem compute_latent_logits_trailing (endLp promptLp : Logprobs) (N : ℕ)
    (hN : 1 ≤ N) :
    compute_latent_logits ⟨some endLp, some promptLp⟩ N =
      some ⟨trailingSlice N (promptLp.tokens ++ endLp.tokens),
            trailingSlice N (promptLp.token_logprobs ++ endLp.token_logprobs)⟩ ∧
    (N ≤ (promptLp.tokens ++ endLp.tokens).length →
      (trailingSlice N (promptLp.tokens ++ endLp.tokens)).length = N) ∧
    (N ≤ (promptLp.token_logprobs ++ endLp.token_logprobs).length →
      (trailingSlice N (promptLp.token_logprobs ++ endLp.token_logprobs)).length
        = N) := by
  have hN0 : N ≠ 0 := by omega
  refine ⟨?_, ?_, ?_⟩
  · simp [compute_latent_logits, pySliceLast_of_pos _ _ hN0]
  · exact trailingSlice_length N _
  · exact trailingSlice_length N _

/-- Witness for C3 at a one-token prompt stream, one-token end stream and
`N = 2 = M`. -/
theorem compute_latent_logits_trailing_witness :
    compute_latent_logits ⟨some ⟨["e"], [(-1 : ℝ)]⟩, some ⟨["p"], [(0 : ℝ)]⟩⟩ 2 =
      some ⟨trailingSlice 2 (["p"] ++ ["e"]),
            trailingSlice 2 ([(0 : ℝ)] ++ [(-1 : ℝ)])⟩ ∧
    (trailingSlice 2 (["p"] ++ ["e"])).length = 2 ∧
    (trailingSlice 2 ([(0 : ℝ)] ++ [(-1 : ℝ)])).length = 2 :=
  have h := compute_latent_logits_trailing ⟨["e"], [(-1 : ℝ)]⟩
    ⟨["p"], [(0 : ℝ)]⟩ 2 (by norm_num)
  ⟨h.1, h.2.1 (by simp), h.2.2 (by simp)⟩

/-- C10: with `answerTokenCount = 0`, the evaluator returns the entire
combined prompt-plus-end stream (Python `l[-0:]` is the whole list), and the
returned token list is the combined stream itself — in particular non-empty
whenever the combined stream is. -/
theorem compute_latent_logits_zero_returns_all (endLp promptLp : Logprobs) :
    compute_latent_logits ⟨some endLp, some promptLp⟩ 0 =
      some ⟨promptLp.tokens ++ endLp.tokens,
            promptLp.token_logprobs ++ endLp.token_logprobs⟩ ∧
    ∀ lp : Logprobs,
      compute_latent_logits ⟨some endLp, some promptLp⟩ 0 = some lp →
        lp.tokens.length = (promptLp.tokens ++ endLp.tokens).length ∧
        (promptLp.tokens ++ endLp.tokens ≠ [] → lp.tokens ≠ []) := by
  have h : compute_latent_logits ⟨some endLp, some promptLp⟩ 0 =
      some ⟨promptLp.tokens ++ endLp.tokens,
            promptLp.token_logprobs ++ endLp.token_logprobs⟩ := by
    simp [compute_latent_logits, pySliceLast]
  refine ⟨h, ?_⟩
  intro lp hlp
  rw [h] at hlp
  injection hlp with hlp
  subst hlp
  exact ⟨rfl, fun hne => hne⟩

/-- Witness for C10 at a one-token prompt stream and a one-token end
stream. -/
theorem compute_latent_logits_zero_returns_all_witness :
    compute_latent_logits ⟨some ⟨["e"], [(-1 : ℝ)]⟩, some ⟨["p"], [(0 : ℝ)]⟩⟩ 0 =
      some ⟨["p"] ++ ["e"], [(0 : ℝ)] ++ [(-1 : ℝ)]⟩ ∧
    (Logprobs.mk (["p"] ++ ["e"]) ([(0 : ℝ)] ++ [(-1 : ℝ)])).tokens.length =
      (["p"] ++ ["e"]).length ∧
    (Logprobs.mk (["p"] ++ ["e"]) ([(0 : ℝ)] ++ [(-1 : ℝ)])).tokens ≠ [] :=
  have h := compute_latent_logits_zero_returns_all ⟨["e"], [(-1 : ℝ)]⟩
    ⟨["p"], [(0 : ℝ)]⟩
  ⟨h.1, (h.2 _ h.1).1, (h.2 _ h.1).2 (by simp)⟩

/-- C4: when the ground-truth transcript log-probabilities and the evaluated
answer log-probabilities have different lengths, the aggregation step writes
the `latents` entry with the `kl_divergence` field left unset, logs a
warning, and the questions loop continues with the remaining questions
unchanged. -/
theorem process_question_result_length_mismatch (existing : List ℝ)
    (r : Logprobs) (hne : existing.length ≠ r.token_logprobs.length) :
    (process_question_result existing (some r)).1 =
        some ⟨r.tokens, r.token_logprobs, none⟩ ∧
    (∀ e, (process_question_result existing (some r)).1 = some e →
        e.kl_divergence = none) ∧
    (process_question_result existing (some r)).2 ≠ [] ∧
    (∀ rest, process_questions ((existing, some r) :: rest) =
        process_question_result existing (some r) :: process_questions rest) := by
  have h : process_question_result existing (some r) =
      (some ⟨r.tokens, r.token_logprobs, none⟩,
       ["Logprobs length mismatch. Skipping KL divergence computation."]) := by
    simp [process_question_result, if_pos hne]
  refine ⟨by rw [h], ?_, by rw [h]; simp, ?_⟩
  · intro e he
    rw [h] at he
    injection he with he
    subst he
    rfl
  · intro rest
    simp [process_questions]

/-- Witness for C4 at transcript log-probabilities of length 1 and an
evaluated answer with no log-probabilities (length 0). -/
theorem process_question_result_length_mismatch_witness :
    (process_question_result [(0 : ℝ)] (some ⟨[], []⟩)).1 =
        some ⟨[], [], none⟩ ∧
    (LatentEntry.mk [] [] none).kl_divergence = none ∧
    (process_question_result [(0 : ℝ)] (some ⟨[], []⟩)).2 ≠ [] ∧
    process_questions [([(0 : ℝ)], some ⟨[], []⟩)] =
      process_question_result [(0 : ℝ)] (some ⟨[], []⟩) ::
        process_questions [] :=
  have h := process_question_result_length_mismatch [(0 : ℝ)] ⟨[], []⟩ (by simp)
  ⟨h.1, h.2.1 ⟨[], [], none⟩ h.1, h.2.2.1, h.2.2.2 []⟩

lemma kl_divergences_sorted_perm (kl : List (String × ℚ)) :
    (kl_divergences_sorted kl).Perm kl :=
  List.mergeSort_perm kl _

lemma kl_divergences_sorted_pairwise (kl : List (String × ℚ)) :
    List.Pairwise (fun a b => b.2 ≤ a.2) (kl_divergences_sorted kl) := by
  have htrans : ∀ a b c : String × ℚ, decide (b.2 ≤ a.2) = true →
      decide (c.2 ≤ b.2) = true → decide (c.2 ≤ a.2) = true := by
    intro a b c hab hbc
    simp only [decide_eq_true_eq] at *
    exact le_trans hbc hab
  have htot : ∀ a b : String × ℚ,
      (decide (b.2 ≤ a.2) || decide (a.2 ≤ b.2)) = true := by
    intro a b
    simp only [Bool.or_eq_true, decide_eq_true_eq]
    exact le_total b.2 a.2
  have h := List.sorted_mergeSort htrans htot kl
  exact h.imp (fun hab => of_decide_eq_true hab)

lemma pairwise_take_drop {α : Type} (R : α → α → Prop) (l : List α) (n : ℕ)
    (h : List.Pairwise R l) : ∀ x ∈ l.take n, ∀ y ∈ l.drop n, R x y := by
  rw [← List.take_append_drop n l, List.pairwise_append] at h
  exact h.2.2

lemma bottom_questions_eq (kl : List (String × ℚ)) :
    bottom_questions kl = (kl_divergences_sorted kl).drop
      ((kl_divergences_sorted kl).length - bottom_k) :=
  pySliceLast_of_pos _ _ (by decide)

lemma take_mid_drop {α : Type} (l : List α) (k : ℕ) (h : 2 * k ≤ l.length) :
    l = l.take k ++ ((l.drop k).take (l.length - 2 * k) ++
      l.drop (l.length - k)) := by
  have h2 : (l.drop k).drop (l.length - 2 * k) = l.drop (l.length - k) := by
    rw [List.drop_drop]
    congr 1
    omega
  conv_lhs => rw [← List.take_append_drop k l]
  congr 1
  rw [← h2]
  exact (List.take_append_drop _ _).symm

lemma take_decomp {α : Type} (l : List α) (k : ℕ) (h : l.length ≤ 2 * k) :
    l.take k = l.take (l.length - k) ++ (l.take k).drop (l.length - k) := by
  conv_lhs => rw [← List.take_append_drop (l.length - k) (l.take k)]
  congr 1
  rw [List.take_take]
  congr 1
  omega

lemma drop_decomp {α : Type} (l : List α) (k : ℕ) (h : l.length < 2 * k) :
    l.drop (l.length - k) = (l.take k).drop (l.length - k) ++ l.drop k := by
  by_cases hk : k ≤ l.length
  · have h2 : (l.take k).drop (l.length - k) =
        (l.drop (l.length - k)).take (2 * k - l.length) := by
      rw [List.drop_take]
      congr 1
      omega
    have h3 : l.drop k = (l.drop (l.length - k)).drop (2 * k - l.length) := by
      rw [List.drop_drop]
      congr 1
      omega
    rw [h2, h3, List.take_append_drop]
  · have h0 : l.length - k = 0 := by omega
    have h1 : l.take k = l := List.take_of_length_le (by omega)
    have h2 : l.drop k = [] := List.drop_eq_nil_of_le (by omega)
    rw [h0, h1, h2]
    simp

lemma overlap_slice_length (kl : List (String × ℚ)) :
    (overlap_slice kl).length =
      min top_k (kl_divergences_sorted kl).length -
        ((kl_divergences_sorted kl).length - bottom_k) := by
  simp [overlap_slice, top_k, bottom_k]

/-- C5 counterexample: with a single recorded divergence (`L = 1 < 2k`,
`k = 5`) the top and bottom slices are the same one-element list, so their
overlap has `1 = 2·min(k,L) − L` element — not `2k − L = 9` as the claim
states. -/
theorem top_bottom_questions_counterexample :
    top_questions [(("q" : String), (0 : ℚ))] = [("q", 0)] ∧
    bottom_questions [(("q" : String), (0 : ℚ))] = [("q", 0)] ∧
    (overlap_slice [(("q" : String), (0 : ℚ))]).length = 1 ∧
    2 * top_k - (kl_divergences_sorted [(("q" : String), (0 : ℚ))]).length = 9 ∧
    (overlap_slice [(("q" : String), (0 : ℚ))]).length ≠
      2 * top_k - (kl_divergences_sorted [(("q" : String), (0 : ℚ))]).length := by
  have h : kl_divergences_sorted [(("q" : String), (0 : ℚ))] = [("q", 0)] := by
    simp [kl_divergences_sorted]
  refine ⟨?_, ?_, ?_, ?_, ?_⟩
  · simp [top_questions, h, top_k]
  · simp [bottom_questions, h, bottom_k, pySliceLast]
  · simp [overlap_slice, h, top_k, bottom_k]
  · simp [h, top_k]
  · simp [overlap_slice, h, top_k, bottom_k]

/-- C5 (amended: for `L < 2k` the overlap has `2·min(k,L) − L` elements —
which is `2k − L` when `k ≤ L < 2k` but `L` when `L < k`): the selection
sorts the recorded divergences descending (a permutation of the input,
pairwise ordered); every top-slice element has divergence at least that of
every non-top element and every bottom-slice element at most that of every
non-bottom element; both slices have length `min k L`; for `L ≥ 2k` the
sorted list splits as top ++ middle ++ bottom (disjoint slices); for
`L < 2k` the two slices share exactly the `overlap_slice`, of length
`2·min(k,L) − L`. -/
theorem top_bottom_questions_spec (kl : List (String × ℚ)) :
    (kl_divergences_sorted kl).Perm kl ∧
    List.Pairwise (fun a b => b.2 ≤ a.2) (kl_divergences_sorted kl) ∧
    (∀ x ∈ top_questions kl, ∀ y ∈ (kl_divergences_sorted kl).drop top_k,
      y.2 ≤ x.2) ∧
    (∀ x ∈ bottom_questions kl,
      ∀ y ∈ (kl_divergences_sorted kl).take
        ((kl_divergences_sorted kl).length - bottom_k), x.2 ≤ y.2) ∧
    (top_questions kl).length = min top_k (kl_divergences_sorted kl).length ∧
    (bottom_questions kl).length =
      min bottom_k (kl_divergences_sorted kl).length ∧
    (2 * top_k ≤ (kl_divergences_sorted kl).length →
      ∃ mid, kl_divergences_sorted kl =
        top_questions kl ++ (mid ++ bottom_questions kl)) ∧
    ((kl_divergences_sorted kl).length < 2 * top_k →
      top_questions kl =
        (kl_divergences_sorted kl).take
          ((kl_divergences_sorted kl).length - top_k) ++ overlap_slice kl ∧
      bottom_questions kl =
        overlap_slice kl ++ (kl_divergences_sorted kl).drop top_k ∧
      (overlap_slice kl).length =
        2 * min top_k (kl_divergences_sorted kl).length -
          (kl_divergences_sorted kl).length) := by
  have hpair := kl_divergences_sorted_pairwise kl
  refine ⟨kl_divergences_sorted_perm kl, hpair, ?_, ?_, ?_, ?_, ?_, ?_⟩
  · intro x hx y hy
    exact pairwise_take_drop _ _ top_k hpair x hx y hy
  · intro x hx y hy
    rw [bottom_questions_eq] at hx
    exact pairwise_take_drop _ _
      ((kl_divergences_sorted kl).length - bottom_k) hpair y hy x hx
  · simp [top_questions]
  · rw [bottom_questions_eq]
    simp only [List.length_drop]
    omega
  · intro h
    refine ⟨((kl_divergences_sorted kl).drop top_k).take
      ((kl_divergences_sorted kl).length - 2 * top_k), ?_⟩
    rw [top_questions, bottom_questions_eq]
    have hbk : bottom_k = top_k := rfl
    rw [hbk]
    exact take_mid_drop (kl_divergences_sorted kl) top_k h
  · intro h
    have hbk : bottom_k = top_k := rfl
    refine ⟨?_, ?_, ?_⟩
    · rw [top_questions, overlap_slice, hbk]
      exact take_decomp (kl_divergences_sorted kl) top_k (by omega)
    · rw [bottom_questions_eq, overlap_slice, hbk]
      exact drop_decomp (kl_divergences_sorted kl) top_k h
    · rw [overlap_slice_length, hbk]
      omega

/-- Witness for C5 at the two-question list
`[("q", 0), ("r", 1)]` (so `L = 2 < 2k`). -/
theorem top_bottom_questions_spec_witness :
    (kl_divergences_sorted [(("q" : String), (0 : ℚ)), ("r", 1)]).Perm
        [(("q" : String), (0 : ℚ)), ("r", 1)] ∧
    List.Pairwise (fun a b => b.2 ≤ a.2)
      (kl_divergences_sorted [(("q" : String), (0 : ℚ)), ("r", 1)]) ∧
    (∀ x ∈ top_questions [(("q" : String), (0 : ℚ)), ("r", 1)],
      ∀ y ∈ (kl_divergences_sorted
        [(("q" : String), (0 : ℚ)), ("r", 1)]).drop top_k, y.2 ≤ x.2) ∧
    (∀ x ∈ bottom_questions [(("q" : String), (0 : ℚ)), ("r", 1)],
      ∀ y ∈ (kl_divergences_sorted [(("q" : String), (0 : ℚ)), ("r", 1)]).take
        ((kl_divergences_sorted
          [(("q" : String), (0 : ℚ)), ("r", 1)]).length - bottom_k),
        x.2 ≤ y.2) ∧
    (top_questions [(("q" : String), (0 : ℚ)), ("r", 1)]).length =
      min top_k
        (kl_divergences_sorted [(("q" : String), (0 : ℚ)), ("r", 1)]).length ∧
    (bottom_questions [(("q" : String), (0 : ℚ)), ("r", 1)]).length =
      min bottom_k
        (kl_divergences_sorted [(("q" : String), (0 : ℚ)), ("r", 1)]).length ∧
    (2 * top_k ≤
        (kl_divergences_sorted [(("q" : String), (0 : ℚ)), ("r", 1)]).length →
      ∃ mid, kl_divergences_sorted [(("q" : String), (0 : ℚ)), ("r", 1)] =
        top_questions [(("q" : String), (0 : ℚ)), ("r", 1)] ++
          (mid ++ bottom_questions [(("q" : String), (0 : ℚ)), ("r", 1)])) ∧
    ((kl_divergences_sorted [(("q" : String), (0 : ℚ)), ("r", 1)]).length <
        2 * top_k →
      top_questions [(("q" : String), (0 : ℚ)), ("r", 1)] =
        (kl_divergences_sorted [(("q" : String), (0 : ℚ)), ("r", 1)]).take
          ((kl_divergences_sorted
            [(("q" : String), (0 : ℚ)), ("r", 1)]).length - top_k) ++
          overlap_slice [(("q" : String), (0 : ℚ)), ("r", 1)] ∧
      bottom_questions [(("q" : String), (0 : ℚ)), ("r", 1)] =
        overlap_slice [(("q" : String), (0 : ℚ)), ("r", 1)] ++
          (kl_divergences_sorted
            [(("q" : String), (0 : ℚ)), ("r", 1)]).drop top_k ∧
      (overlap_slice [(("q" : String), (0 : ℚ)), ("r", 1)]).length =
        2 * min top_k
          (kl_divergences_sorted
            [(("q" : String), (0 : ℚ)), ("r", 1)]).length -
          (kl_divergences_sorted
            [(("q" : String), (0 : ℚ)), ("r", 1)]).length) :=
  top_bottom_questions_spec [(("q" : String), (0 : ℚ)), ("r", 1)]

/-- C6 counterexample: an oracle response that lacks per-token
log-probabilities does NOT produce `Fail` — `fill_latent` returns the
filled record with empty token/log-probability lists, and the caller
stores it instead of skipping the individual. -/
theorem fill_latent_no_logprobs_counterexample :
    fill_latent (.ok ⟨"filled", none⟩) = some ⟨"filled", [], []⟩ ∧
    fill_latent (.ok ⟨"filled", none⟩) ≠ none ∧
    process_user_fill "blank_latent_001" ⟨[], []⟩ (.ok ⟨"filled", none⟩) =
      ⟨["blank_latent_001"], [("blank_latent_001", "filled")]⟩ := by
  have hstrip : pyStrip "filled" = "filled" := by decide
  refine ⟨?_, ?_, ?_⟩
  · simp [fill_latent, hstrip]
  · simp [fill_latent]
  · simp [process_user_fill, fill_latent, hstrip]

/-- C6 (amended): `fill_latent` returns `Fail` (`{}`) exactly on a raised
oracle exception, in which case the caller leaves the individual unchanged
and the loop proceeds to the next individual; when the oracle response
merely lacks per-token log-probabilities, `fill_latent` instead returns
the filled Instantiation with empty token and log-probability lists, and
the caller stores it. -/
theorem fill_latent_failure_spec (content : String) (user : FillUserState)
    (blank_latent_id : String) (rest : List (FillUserState × OracleOutcome))
    (hnew : blank_latent_id ∉ user.filled_latent_keys) :
    fill_latent .exn = none ∧
    process_user_fill blank_latent_id user .exn = user ∧
    fill_latents_round blank_latent_id ((user, .exn) :: rest) =
      user :: fill_latents_round blank_latent_id rest ∧
    fill_latent (.ok ⟨content, none⟩) = some ⟨pyStrip content, [], []⟩ ∧
    process_user_fill blank_latent_id user (.ok ⟨content, none⟩) =
      ⟨user.filled_latent_keys ++ [blank_latent_id],
       user.saved ++ [(blank_latent_id, pyStrip content)]⟩ := by
  refine ⟨rfl, ?_, ?_, rfl, ?_⟩
  · simp [process_user_fill, fill_latent]
  · simp [fill_latents_round, process_user_fill, fill_latent]
  · simp [process_user_fill, fill_latent, hnew]

/-- Witness for C6 at a fresh user and `blank_latent_001`. -/
theorem fill_latent_failure_spec_witness :
    fill_latent .exn = none ∧
    process_user_fill "blank_latent_001" ⟨[], []⟩ .exn = ⟨[], []⟩ ∧
    fill_latents_round "blank_latent_001" ((⟨[], []⟩, .exn) :: []) =
      ⟨[], []⟩ :: fill_latents_round "blank_latent_001" [] ∧
    fill_latent (.ok ⟨"t", none⟩) = some ⟨pyStrip "t", [], []⟩ ∧
    process_user_fill "blank_latent_001" ⟨[], []⟩ (.ok ⟨"t", none⟩) =
      ⟨([] : List String) ++ ["blank_latent_001"],
       ([] : List (String × String)) ++ [("blank_latent_001", pyStrip "t")]⟩ :=
  fill_latent_failure_spec "t" ⟨[], []⟩ "blank_latent_001" [] (by simp)

lemma parseDigitChars_append (s : List Char) (c : Char) :
    parseDigitChars (s ++ [c]) = 10 * parseDigitChars s + (c.toNat - 48) := by
  simp [parseDigitChars, List.foldl_append]

lemma digitChar_val (d : ℕ) (h : d < 10) :
    (Nat.digitChar d).toNat - 48 = d := by
  interval_cases d <;> decide

lemma parse_rev_digitChars (ds : List ℕ) (h : ∀ d ∈ ds, d < 10) :
    parseDigitChars ((ds.map Nat.digitChar).reverse) = Nat.ofDigits 10 ds := by
  induction ds with
  | nil => simp [parseDigitChars, Nat.ofDigits]
  | cons d ds ih =>
      have hd : d < 10 := h d (List.mem_cons_self d ds)
      have hds : ∀ x ∈ ds, x < 10 := fun x hx => h x (List.mem_cons_of_mem d hx)
      simp only [List.map_cons, List.reverse_cons]
      rw [parseDigitChars_append, ih hds, digitChar_val d hd, Nat.ofDigits_cons]
      ring

lemma parse_natToDecimal (n : ℕ) : parseDigitChars (natToDecimal n) = n := by
  by_cases h : n = 0
  · subst h
    decide
  · rw [natToDecimal, if_neg h,
      parse_rev_digitChars _ (fun d hd => Nat.digits_lt_base (by norm_num) hd),
      Nat.ofDigits_digits]

lemma parseDigitChars_cons_zero (l : List Char) :
    parseDigitChars ('0' :: l) = parseDigitChars l := by
  have h0 : (fun (a : ℕ) (c : Char) => 10 * a + (c.toNat - 48)) 0 '0' = 0 := by
    decide
  simp [parseDigitChars, h0]

lemma parseDigitChars_replicate_zero (m : ℕ) (s : List Char) :
    parseDigitChars (List.replicate m '0' ++ s) = parseDigitChars s := by
  induction m with
  | zero => simp
  | succ m ih =>
      rw [List.replicate_succ, List.cons_append, parseDigitChars_cons_zero, ih]

lemma parseDigitChars_zfill (s : List Char) (w : ℕ) :
    parseDigitChars (zfill s w) = parseDigitChars s :=
  parseDigitChars_replicate_zero _ s

lemma zfill_length (s : List Char) (w : ℕ) :
    (zfill s w).length = max w s.length := by
  simp [zfill]
  omega

lemma takeWhile_digits_append (s t : List Char)
    (hs : ∀ c ∈ s, Char.isDigit c = true) (c : Char)
    (hc : Char.isDigit c = false) :
    (s ++ c :: t).takeWhile Char.isDigit = s := by
  induction s with
  | nil => simp [List.takeWhile_cons, hc]
  | cons a s ih =>
      have ha : Char.isDigit a = true := hs a (List.mem_cons_self a s)
      have hs' : ∀ x ∈ s, Char.isDigit x = true :=
        fun x hx => hs x (List.mem_cons_of_mem a hx)
      simp [List.takeWhile_cons, ha, ih hs']

lemma trailingDigits_append_sep (xs s : List Char)
    (hs : ∀ c ∈ s, Char.isDigit c = true) :
    trailingDigits (xs ++ '_' :: s) = s := by
  rw [trailingDigits, List.reverse_append, List.reverse_cons,
    List.append_assoc, List.singleton_append,
    takeWhile_digits_append s.reverse xs.reverse
      (fun c hc => hs c (List.mem_reverse.mp hc)) '_' (by decide),
    List.reverse_reverse]

lemma pySplit_cons_sep (sep : Char) (cs : List Char) :
    pySplit sep (sep :: cs) = [] :: pySplit sep cs := by
  simp [pySplit]

lemma pySplit_cons_ne (sep c : Char) (cs : List Char) (h : c ≠ sep) :
    pySplit sep (c :: cs) =
      match pySplit sep cs with
      | [] => [[c]]
      | hd :: tl => (c :: hd) :: tl := by
  simp [pySplit, h]

lemma pySplit_length (sep : Char) (l : List Char) :
    (pySplit sep l).length = l.count sep + 1 := by
  induction l with
  | nil => simp [pySplit]
  | cons c cs ih =>
      by_cases h : c = sep
      · rw [h, pySplit_cons_sep]
        simp only [List.length_cons, ih]
        have hcc : List.count sep (sep :: cs) = List.count sep cs + 1 := by
          simp [List.count_cons]
        omega
      · rw [pySplit_cons_ne sep c cs h]
        cases hp : pySplit sep cs with
        | nil => rw [hp] at ih; simp at ih
        | cons hd tl =>
            rw [hp] at ih
            simp only [List.length_cons] at *
            have hcc : (c :: cs).count sep = cs.count sep := by
              simp [List.count_cons, h]
            omega

lemma pySplit_ne_nil (sep : Char) (l : List Char) : pySplit sep l ≠ [] := by
  intro h
  have hl := pySplit_length sep l
  rw [h] at hl
  simp at hl

lemma pySplit_no_sep (sep : Char) (ys : List Char) (hys : sep ∉ ys) :
    pySplit sep ys = [ys] := by
  induction ys with
  | nil => rfl
  | cons c cs ih =>
      have hc : c ≠ sep := by
        intro h
        exact hys (h ▸ List.mem_cons_self c cs)
      have hcs : sep ∉ cs := fun h => hys (List.mem_cons_of_mem c h)
      rw [pySplit_cons_ne sep c cs hc, ih hcs]

lemma pySplit_getLastD_append_sep (sep : Char) (ys : List Char)
    (hys : sep ∉ ys) (xs : List Char) :
    (pySplit sep (xs ++ sep :: ys)).getLastD [] = ys := by
  induction xs with
  | nil =>
      rw [List.nil_append, pySplit_cons_sep, pySplit_no_sep sep ys hys]
      rfl
  | cons c xs ih =>
      by_cases hc : c = sep
      · rw [List.cons_append, hc, pySplit_cons_sep, List.getLastD_cons]
        exact ih
      · rw [List.cons_append, pySplit_cons_ne sep c _ hc]
        cases hp : pySplit sep (xs ++ sep :: ys) with
        | nil => exact absurd hp (pySplit_ne_nil sep _)
        | cons hd tl =>
            rw [hp] at ih
            cases tl with
            | nil =>
                exfalso
                have hlen := pySplit_length sep (xs ++ sep :: ys)
                rw [hp] at hlen
                simp at hlen
            | cons t2 tl2 =>
                simp only [List.getLastD_cons] at *
                exact ih

lemma get_max_latent_key_aux_spec (keys : List (List Char)) :
    ∀ (max_id : ℤ) (best : Option (List Char)) (mk : List Char),
    (∀ b, best = some b → (numId b : ℤ) = max_id) →
    get_max_latent_key_aux keys max_id best = some mk →
    max_id ≤ (numId mk : ℤ) ∧
      ∀ k ∈ keys, ¬(trailingDigits k).isEmpty = true →
        (numId k : ℤ) ≤ (numId mk : ℤ) := by
  induction keys with
  | nil =>
      intro max_id best mk hbest h
      simp only [get_max_latent_key_aux] at h
      have hb := hbest mk h
      exact ⟨le_of_eq hb.symm, by simp⟩
  | cons key keys ih =>
      intro max_id best mk hbest h
      simp only [get_max_latent_key_aux] at h
      by_cases h1 : (trailingDigits key).isEmpty
      · rw [if_pos h1] at h
        obtain ⟨hge, hall⟩ := ih max_id best mk hbest h
        refine ⟨hge, ?_⟩
        intro k hk hkne
        rcases List.mem_cons.mp hk with rfl | hk'
        · exact absurd h1 hkne
        · exact hall k hk' hkne
      · rw [if_neg h1] at h
        by_cases h2 : max_id < (parseDigitChars (trailingDigits key) : ℤ)
        · rw [if_pos h2] at h
          obtain ⟨hge, hall⟩ := ih (parseDigitChars (trailingDigits key))
            (some key) mk (by intro b hb; injection hb with hb; subst hb; rfl) h
          have hkey : (numId key : ℤ) ≤ (numId mk : ℤ) := hge
          refine ⟨le_trans (le_of_lt h2) hge, ?_⟩
          intro k hk hkne
          rcases List.mem_cons.mp hk with rfl | hk'
          · exact hkey
          · exact hall k hk' hkne
        · rw [if_neg h2] at h
          obtain ⟨hge, hall⟩ := ih max_id best mk hbest h
          refine ⟨hge, ?_⟩
          intro k hk hkne
          rcases List.mem_cons.mp hk with rfl | hk'
          · exact le_trans (le_of_not_lt h2) hge
          · exact hall k hk' hkne

lemma get_max_latent_key_max (keys : List (List Char)) (mk : List Char)
    (h : get_max_latent_key keys = some mk) :
    ∀ k ∈ keys, ¬(trailingDigits k).isEmpty = true → numId k ≤ numId mk := by
  have hs := get_max_latent_key_aux_spec keys (-1) none mk
    (by intro b hb; cases hb) h
  intro k hk hkne
  exact_mod_cast hs.2 k hk hkne

/-- C8: for a maximal key of the shape `stem_digits` (e.g.
`blank_latent_007`), the publishing tail of `gen_blank_latent.py` computes
exactly one new key: the digit suffix after the last underscore is parsed,
incremented by exactly one, and re-padded with `zfill` to the old width
(zero-padding preserved; the width grows only when the decimal
representation outgrows it); the new numeric id is exactly one greater
than the maximal id, hence strictly greater than it and than every
existing version id reachable by `get_max_latent_key` — so versions
increase monotonically and no existing version is overwritten. -/
theorem new_latent_key_spec (stem s : List Char) (keys : List (List Char))
    (hdig : ∀ c ∈ s, Char.isDigit c = true) (hne : s ≠ [])
    (hmax : get_max_latent_key keys = some (stem ++ '_' :: s)) :
    (pySplit '_' (stem ++ '_' :: s)).getLastD [] = s ∧
    new_latent_key (stem ++ '_' :: s) =
      some (zfill (natToDecimal (parseDigitChars s + 1)) s.length) ∧
    parseDigitChars (zfill (natToDecimal (parseDigitChars s + 1)) s.length) =
      numId (stem ++ '_' :: s) + 1 ∧
    (zfill (natToDecimal (parseDigitChars s + 1)) s.length).length =
      max s.length (natToDecimal (parseDigitChars s + 1)).length ∧
    numId (stem ++ '_' :: s) <
      parseDigitChars (zfill (natToDecimal (parseDigitChars s + 1)) s.length) ∧
    ∀ k ∈ keys, ¬(trailingDigits k).isEmpty = true →
      numId k <
        parseDigitChars (zfill (natToDecimal (parseDigitChars s + 1))
          s.length) := by
  have hsep : '_' ∉ s := by
    intro hmem
    have hd := hdig '_' hmem
    simp at hd
  have hlast : (pySplit '_' (stem ++ '_' :: s)).getLastD [] = s :=
    pySplit_getLastD_append_sep '_' s hsep stem
  have htd : trailingDigits (stem ++ '_' :: s) = s :=
    trailingDigits_append_sep stem s hdig
  have hparse : parseDigitChars
      (zfill (natToDecimal (parseDigitChars s + 1)) s.length) =
      parseDigitChars s + 1 := by
    rw [parseDigitChars_zfill, parse_natToDecimal]
  have hnum : numId (stem ++ '_' :: s) = parseDigitChars s := by
    rw [numId, htd]
  have hdigit : pyIsdigit s = true := by
    simp [pyIsdigit, List.isEmpty_iff, hne, List.all_eq_true]
    exact hdig
  refine ⟨hlast, ?_, ?_, zfill_length _ _, ?_, ?_⟩
  · rw [List.getLastD_eq_getLast?] at hlast
    simp [new_latent_key, hlast, hdigit]
  · rw [hparse, hnum]
  · rw [hparse, hnum]
    omega
  · intro k hk hkne
    have hle := get_max_latent_key_max keys _ hmax k hk hkne
    rw [hnum] at hle
    rw [hparse]
    omega

/-- Witness for C8 at the single key `b_007`. -/
theorem new_latent_key_spec_witness :
    (pySplit '_' (['b'] ++ '_' :: ['0', '0', '7'])).getLastD [] =
      ['0', '0', '7'] ∧
    new_latent_key (['b'] ++ '_' :: ['0', '0', '7']) =
      some (zfill (natToDecimal (parseDigitChars ['0', '0', '7'] + 1))
        ['0', '0', '7'].length) ∧
    parseDigitChars (zfill (natToDecimal (parseDigitChars ['0', '0', '7'] + 1))
        ['0', '0', '7'].length) =
      numId (['b'] ++ '_' :: ['0', '0', '7']) + 1 ∧
    (zfill (natToDecimal (parseDigitChars ['0', '0', '7'] + 1))
        ['0', '0', '7'].length).length =
      max ['0', '0', '7'].length
        (natToDecimal (parseDigitChars ['0', '0', '7'] + 1)).length ∧
    numId (['b'] ++ '_' :: ['0', '0', '7']) <
      parseDigitChars (zfill (natToDecimal (parseDigitChars ['0', '0', '7'] + 1))
        ['0', '0', '7'].length) ∧
    ∀ k ∈ [['b'] ++ '_' :: ['0', '0', '7']],
      ¬(trailingDigits k).isEmpty = true →
        numId k <
          parseDigitChars (zfill
            (natToDecimal (parseDigitChars ['0', '0', '7'] + 1))
            ['0', '0', '7'].length) :=
  new_latent_key_spec ['b'] ['0', '0', '7'] [['b'] ++ '_' :: ['0', '0', '7']]
    (by decide) (by decide) (by decide)

/-- C9: an individual with zero recorded divergences for the current
(most-recent) template key is skipped by the collection loop, so it
appears nowhere in `users_data`, and the aggregated synthesis prompt is
exactly the prompt built without that individual — neither its filled
text nor any of its question/divergence pairs contribute. -/
theorem synthesis_omits_divergence_free_users (u : GenUser)
    (hnone : ∀ mk, get_max_latent_key (u.filled_latents.map Prod.fst) =
        some mk →
      ∀ bank ∈ u.question_banks, ∀ q ∈ bank.2, lookup_kl mk q = none) :
    process_gen_user u = none ∧
    ∀ (us vs : List GenUser) (k : ℕ),
      construct_aggregated_prompt
          ((us ++ u :: vs).filterMap process_gen_user) k =
        construct_aggregated_prompt ((us ++ vs).filterMap process_gen_user)
          k := by
  have hmain : process_gen_user u = none := by
    rw [process_gen_user]
    by_cases h1 : u.filled_latents.isEmpty
    · simp [h1]
    · cases hmk : get_max_latent_key (u.filled_latents.map Prod.fst) with
      | none => simp [h1, hmk]
      | some mk =>
          have hcoll : collect_kl_divergences mk u.question_banks = [] := by
            rw [collect_kl_divergences]
            rw [List.flatten_eq_nil_iff]
            intro l hl
            simp only [List.mem_map] at hl
            obtain ⟨bank, hbank, rfl⟩ := hl
            rw [List.filterMap_eq_nil_iff]
            intro q hq
            rw [hnone mk hmk bank hbank q hq]
            rfl
          simp [h1, hmk, hcoll]
  refine ⟨hmain, ?_⟩
  intro us vs k
  rw [construct_aggregated_prompt, construct_aggregated_prompt]
  rw [List.filterMap_append, List.filterMap_append, List.filterMap_cons,
    hmain]

/-- Witness for C9: a user with one filled latent and one question that
has no recorded divergence contributes nothing to the prompt. -/
theorem synthesis_omits_divergence_free_users_witness :
    process_gen_user
      ⟨"user_001", [(['b', '_', '0'], "txt")], [("NEO", [⟨"q1", []⟩])]⟩ =
      none ∧
    construct_aggregated_prompt
        (([] ++ (⟨"user_001", [(['b', '_', '0'], "txt")],
            [("NEO", [⟨"q1", []⟩])]⟩ : GenUser) :: []).filterMap
          process_gen_user) 5 =
      construct_aggregated_prompt
        (([] ++ []).filterMap process_gen_user) 5 :=
  have h := synthesis_omits_divergence_free_users
    ⟨"user_001", [(['b', '_', '0'], "txt")], [("NEO", [⟨"q1", []⟩])]⟩
    (by
      intro mk hmk bank hbank q hq
      simp only [List.mem_singleton] at hbank
      subst hbank
      simp only [List.mem_singleton] at hq
      subst hq
      rfl)
  ⟨h.1, h.2 [] [] 5⟩

/-- C7 counterexample: with zero contributing individuals the round
publishes nothing and logs an error, but the script returns normally with
exit status `0` — not the non-zero fatal halt the claim asserts. -/
theorem no_divergence_round_counterexample :
    (gen_blank_latent_finish [] "template text" ['b', '_', '0']).published =
      none ∧
    (gen_blank_latent_finish [] "template text" ['b', '_', '0']).errorLogged =
      true ∧
    (gen_blank_latent_finish [] "template text" ['b', '_', '0']).exitCode =
      0 :=
  ⟨rfl, rfl, rfl⟩

/-- C7 (amended): when no individual contributes usable divergence data
(`process_gen_user` yields `none` for every user), the synthesis stage
publishes no new Template — so the version does not advance — and logs an
error, but the run then ends with exit status 0 via a plain `return`;
there is no non-zero fatal halt. -/
theorem no_divergence_round_spec (users : List GenUser)
    (new_template : String) (max_latent_key : List Char)
    (h : ∀ u ∈ users, process_gen_user u = none) :
    gen_blank_latent_finish (users.filterMap process_gen_user) new_template
      max_latent_key = ⟨0, none, true⟩ := by
  have hempty : users.filterMap process_gen_user = [] :=
    List.filterMap_eq_nil_iff.mpr h
  rw [hempty]
  rfl

/-- Witness for C7 at the empty user list. -/
theorem no_divergence_round_spec_witness :
    gen_blank_latent_finish
      (([] : List GenUser).filterMap process_gen_user) "template text"
      ['b', '_', '0'] = ⟨0, none, true⟩ :=
  no_divergence_round_spec [] "template text" ['b', '_', '0'] (by simp)

end PsychLLM
